import Mathlib

/-!
Shallow embedding of `src/scripts/real_settlement_tracker.py` (class
`RealSettlementTracker`).  Python floats are modelled as exact rationals
(`ℚ`); the builtin `round(x, n)` (round-half-to-even on decimals) is
modelled by `pyRound`.  Timestamps (`datetime`) are modelled as rational
seconds, so `(a - b).total_seconds()` is plain subtraction.  Fallible
parsing is modelled with `Option`.  Dictionaries with a fixed key set are
modelled as structures; a key that a given code path never writes is an
`Option` field holding `none`.
-/

namespace RealSettlementTracker

/-- Model of Python `round(q, nd)`: round to `nd` decimal digits, ties to
the even integer of scaled value. -/
def halfEvenRound (q : ℚ) : ℤ :=
  if q - ⌊q⌋ < 1/2 then ⌊q⌋
  else if 1/2 < q - ⌊q⌋ then ⌊q⌋ + 1
  else if ⌊q⌋ % 2 = 0 then ⌊q⌋ else ⌊q⌋ + 1

def pyRound (nd : ℕ) (q : ℚ) : ℚ := (halfEvenRound (q * 10 ^ nd) : ℚ) / 10 ^ nd

-- Configuration constants (lines 21-25 of the source); `INITIAL_CAPITAL`
-- is `100.0` in the source.
def INITIAL_CAPITAL : ℚ := 100
def MIN_EDGE : ℚ := 0.03
def MAX_TRADES_PER_HOUR : ℕ := 5

/-- One entry of the `outcomePrices` array: either a value `float()`
accepts (modelled by its rational value) or one it raises on. -/
inductive PriceTok
  | num (q : ℚ)
  | bad
deriving DecidableEq

/-- The market snapshot fields the tracker reads.  `outcomePrices = none`
models a missing field or a JSON string that fails to decode to a list;
`volume` and `liquidity` model `float(market.get(k, 0) or 0)`. -/
structure Market where
  id : String
  question : String
  volume : ℚ
  liquidity : ℚ
  outcomePrices : Option (List PriceTok)
deriving DecidableEq

/-- The opportunity dict built by `calculate_opportunity`, merged with the
`market` key added by `find_opportunity` (lines 178-184, 197-200). -/
structure Opp where
  market : Market
  side : String
  price : ℚ
  edge : ℚ
  volume : ℚ
  liquidity : ℚ
deriving DecidableEq

/-- The position dict created at lines 235-248 and mutated at settlement
(lines 319-323).  `won` and `settled_at` are keys only written at
settlement, hence `Option` fields that start as `none`. -/
structure Position where
  id : String
  opened_at : ℚ
  market_id : String
  question : String
  side : String
  entry_price : ℚ
  position_size : ℚ
  shares : ℚ
  edge : ℚ
  status : String
  settlement_outcome : Option String
  pnl : Option ℚ
  won : Option Bool := none
  settled_at : Option ℚ := none
deriving DecidableEq

/-- The mutable state of a `RealSettlementTracker` instance
(lines 31-39). -/
structure Tracker where
  capital : ℚ
  available_capital : ℚ
  open_positions : List Position
  settled_trades : List Position
  start_time : ℚ
  last_trade_time : Option ℚ
  hourly_trades : ℕ
  last_hour_reset : ℚ
  traded_market_ids : List String
deriving DecidableEq

/-- `__init__` state before `load_state` runs (lines 31-39); `s` is the
construction time. -/
def initialTracker (s : ℚ) : Tracker :=
  { capital := INITIAL_CAPITAL
    available_capital := INITIAL_CAPITAL
    open_positions := []
    settled_trades := []
    start_time := s
    last_trade_time := none
    hourly_trades := 0
    last_hour_reset := s
    traded_market_ids := [] }

/-- `parse_prices` (lines 132-143): at least two entries are required and
the first two must parse as floats; every failure returns `None`. -/
def parse_prices (prices_raw : Option (List PriceTok)) : Option (ℚ × ℚ) :=
  match prices_raw with
  | none => none
  | some prices =>
    if 2 ≤ prices.length then
      match prices with
      | PriceTok.num a :: PriceTok.num b :: _ => some (a, b)
      | _ => none
    else none

/-- `market_efficiency` (line 163): `min(liquidity / volume, 1.0) if volume > 0 else 0`. -/
def market_efficiency (m : Market) : ℚ :=
  if 0 < m.volume then min (m.liquidity / m.volume) 1 else 0

/-- Line 164: `edge = 0.02 + (1 - market_efficiency) * 0.05`. -/
def rawEdge (m : Market) : ℚ := 0.02 + (1 - market_efficiency m) * 0.05

/-- Line 165: `edge = max(MIN_EDGE, min(edge, 0.10))`. -/
def clampedEdge (m : Market) : ℚ := max MIN_EDGE (min (rawEdge m) 0.10)

/-- The part of `calculate_opportunity` after price parsing
(lines 159-184): price band, minimum edge check, side selection. -/
def calc_scored (m : Market) (yes_price no_price : ℚ) : Option Opp :=
  if yes_price ≤ 0.08 ∨ 0.92 ≤ yes_price then none
  else if clampedEdge m < MIN_EDGE then none
  else if yes_price < 0.5 then
    some { market := m, side := "Yes", price := yes_price, edge := clampedEdge m,
           volume := m.volume, liquidity := m.liquidity }
  else
    some { market := m, side := "No", price := no_price, edge := clampedEdge m,
           volume := m.volume, liquidity := m.liquidity }

/-- `calculate_opportunity` (lines 145-184). -/
def calculate_opportunity (m : Market) : Option Opp :=
  if m.volume < 50000 then none
  else
    match parse_prices m.outcomePrices with
    | none => none
    | some (yes_price, no_price) => calc_scored m yes_price no_price

/-- `calc_scored` with the dead `if edge < MIN_EDGE: return None` branch
(lines 167-168) removed. -/
def calc_scored_nofilter (m : Market) (yes_price no_price : ℚ) : Option Opp :=
  if yes_price ≤ 0.08 ∨ 0.92 ≤ yes_price then none
  else if yes_price < 0.5 then
    some { market := m, side := "Yes", price := yes_price, edge := clampedEdge m,
           volume := m.volume, liquidity := m.liquidity }
  else
    some { market := m, side := "No", price := no_price, edge := clampedEdge m,
           volume := m.volume, liquidity := m.liquidity }

/-- `calculate_opportunity` with the dead `if edge < MIN_EDGE: return None`
branch (lines 167-168) removed. -/
def calculate_opportunity_nofilter (m : Market) : Option Opp :=
  if m.volume < 50000 then none
  else
    match parse_prices m.outcomePrices with
    | none => none
    | some (yes_price, no_price) => calc_scored_nofilter m yes_price no_price

/-- Rate limiting test (lines 212-215): `last_trade_time` is only truthy
when set, and then an elapsed time under 60 seconds rejects. -/
def rateLimited (t : Tracker) (now : ℚ) : Bool :=
  match t.last_trade_time with
  | none => false
  | some lt => decide (now - lt < 60)

/-- Hour window reset (lines 217-219); it mutates state even when a later
check rejects the trade. -/
def hourReset (t : Tracker) (now : ℚ) : Tracker :=
  if now - t.last_hour_reset > 3600 then
    { t with hourly_trades := 0, last_hour_reset := now }
  else t

/-- Position sizing (lines 225-227): kelly fraction capped at 0.10, size
clamped to `[5.0, available * 0.15]`. -/
def position_size_calc (available edge : ℚ) : ℚ :=
  max 5.0 (min (available * min (edge * 2.5) 0.10) (available * 0.15))

/-- Line 236: the id is a string derived from the open timestamp. -/
def posId (now : ℚ) : String := "POS_" ++ toString ⌊now⌋

/-- The position record built at lines 235-248; `ps` is the unrounded
computed size. -/
def mkPosition (opp : Opp) (now : ℚ) (ps : ℚ) : Position :=
  { id := posId now
    opened_at := now
    market_id := opp.market.id
    question := opp.market.question
    side := opp.side
    entry_price := pyRound 4 opp.price
    position_size := pyRound 2 ps
    shares := pyRound 4 (ps / opp.price)
    edge := pyRound 4 opp.edge
    status := "OPEN"
    settlement_outcome := none
    pnl := none }

/-- Update of the set `traded_market_ids` (line 254), modelled as a
duplicate-free list. -/
def addMarketId (ids : List String) (mid : String) : List String :=
  if mid ∈ ids then ids else ids ++ [mid]

/-- `open_position` (lines 207-269).  Returns the mutated tracker and the
created position (`none` on rejection).  Note that rejection by the hourly
cap or the size check still keeps the hour window reset. -/
def open_position (t : Tracker) (opp : Opp) (now : ℚ) : Tracker × Option Position :=
  if rateLimited t now then (t, none)
  else if MAX_TRADES_PER_HOUR ≤ (hourReset t now).hourly_trades then (hourReset t now, none)
  else if (hourReset t now).available_capital <
      position_size_calc (hourReset t now).available_capital opp.edge then (hourReset t now, none)
  else
    ({ hourReset t now with
        available_capital := (hourReset t now).available_capital -
          position_size_calc (hourReset t now).available_capital opp.edge
        last_trade_time := some now
        hourly_trades := (hourReset t now).hourly_trades + 1
        traded_market_ids := addMarketId (hourReset t now).traded_market_ids opp.market.id
        open_positions := (hourReset t now).open_positions ++
          [mkPosition opp now (position_size_calc (hourReset t now).available_capital opp.edge)] },
     some (mkPosition opp now (position_size_calc (hourReset t now).available_capital opp.edge)))

/-- The exact pnl computed at lines 305-312 (`payout - position_size` on a
win, `-position_size` on a loss), before the 2-decimal rounding applied to
the stored field. -/
def settleExact (pos : Position) (ro : String) : ℚ :=
  if pos.side == ro then pos.shares - pos.position_size else -pos.position_size

/-- The payout returned to available capital at line 316. -/
def settlePayout (pos : Position) (ro : String) : ℚ :=
  if pos.side == ro then pos.shares else 0

/-- The in-place mutation of the position dict at lines 319-323. -/
def settlePos (pos : Position) (ro : String) (now : ℚ) : Position :=
  { pos with
    status := "SETTLED"
    settlement_outcome := some ro
    settled_at := some now
    won := some (pos.side == ro)
    pnl := some (pyRound 2 (settleExact pos ro)) }

/-- `settle_position` (lines 293-341), value-level rendering: the Python
code mutates the dict held at index `i` of `open_positions` in place and
then removes that same object from the list, so here the element at `i`
is dropped and its mutated copy appended to `settled_trades`.  An index
that names no open position leaves the state unchanged (`check_settlements`
only calls this with a member of the list). -/
def settle_position (t : Tracker) (i : ℕ) (ro : String) (now : ℚ) : Tracker :=
  match t.open_positions[i]? with
  | none => t
  | some pos =>
    { t with
      capital := t.capital + settleExact pos ro
      available_capital := t.available_capital + settlePayout pos ro
      open_positions := t.open_positions.eraseIdx i
      settled_trades := t.settled_trades ++ [settlePos pos ro now] }

/-- A ledger event: an `open_position` attempt or a settlement of the open
position at a given index. -/
inductive Event
  | openEv (opp : Opp) (now : ℚ)
  | settleEv (i : ℕ) (ro : String) (now : ℚ)

def step (t : Tracker) : Event → Tracker
  | Event.openEv opp now => (open_position t opp now).1
  | Event.settleEv i ro now => settle_position t i ro now

/-- The tracker state after a sequence of ledger events from the initial
state. -/
def execTrace (t : Tracker) (tr : List Event) : Tracker := tr.foldl step t

/-- Python list slice `l[-n:]`. -/
def takeLast {α : Type} (n : ℕ) (l : List α) : List α := l.drop (l.length - n)

/-- The JSON object written by `save_state` (lines 74-98).  Fields that
`load_state` reads are `Option`-valued so that a key the writer omits is
representable; `save_state` writes all of them except `settled_trades`,
which no code path ever writes. -/
structure SavedState where
  mode : String
  capital : Option ℚ
  available_capital : Option ℚ
  initial_capital : ℚ
  realized_pnl : ℚ
  unrealized_positions : ℚ
  open_positions_count : ℕ
  settled_trades_count : ℕ
  wins : ℕ
  losses : ℕ
  start_time : ℚ
  last_update : ℚ
  open_positions : Option (List Position)
  recent_settled : List Position
  traded_market_ids : Option (List String)
  settled_trades : Option (List Position)
deriving DecidableEq

/-- `save_state` (lines 74-98); `now` is the wall clock at save time. -/
def save_state (t : Tracker) (now : ℚ) : SavedState :=
  { mode := "REAL_SETTLEMENT_TRACKER"
    capital := some (pyRound 2 t.capital)
    available_capital := some (pyRound 2 t.available_capital)
    initial_capital := INITIAL_CAPITAL
    realized_pnl := pyRound 2 ((t.settled_trades.map (fun p => p.pnl.getD 0)).sum)
    unrealized_positions := pyRound 2 ((t.open_positions.map Position.position_size).sum)
    open_positions_count := t.open_positions.length
    settled_trades_count := t.settled_trades.length
    wins := (t.settled_trades.filter (fun p => decide (0 < p.pnl.getD 0))).length
    losses := (t.settled_trades.filter (fun p => decide (p.pnl.getD 0 < 0))).length
    start_time := t.start_time
    last_update := now
    open_positions := some t.open_positions
    recent_settled := takeLast 5 t.settled_trades
    traded_market_ids := some t.traded_market_ids
    settled_trades := none }

/-- `load_state` (lines 59-72) applied to a freshly constructed tracker:
each field read from the file falls back to the initial configuration when
the key is absent. -/
def load_state (fresh : Tracker) (s : SavedState) : Tracker :=
  { fresh with
    capital := s.capital.getD INITIAL_CAPITAL
    available_capital := s.available_capital.getD INITIAL_CAPITAL
    open_positions := s.open_positions.getD []
    settled_trades := s.settled_trades.getD []
    traded_market_ids := s.traded_market_ids.getD [] }

/-- The exact pnl of a settled record, recomputed from its stored fields;
`settle_position` adds exactly this amount to `capital`. -/
def settledExactPnl (p : Position) : ℚ :=
  (if p.won = some true then p.shares else 0) - p.position_size

/-! Helper lemmas about the rounding model. -/

lemma halfEvenRound_of_lt {q : ℚ} {z : ℤ} (h1 : (z : ℚ) ≤ q) (h2 : q - z < 1/2) :
    halfEvenRound q = z := by
  have hz : ⌊q⌋ = z := by
    rw [Int.floor_eq_iff]
    exact ⟨h1, by linarith⟩
  unfold halfEvenRound
  rw [hz, if_pos h2]

lemma halfEvenRound_of_gt {q : ℚ} {z : ℤ} (h1 : 1/2 < q - z) (h2 : q < (z : ℚ) + 1) :
    halfEvenRound q = z + 1 := by
  have hz : ⌊q⌋ = z := by
    rw [Int.floor_eq_iff]
    exact ⟨by linarith, by linarith⟩
  unfold halfEvenRound
  rw [hz, if_neg (by linarith), if_pos h1]

lemma halfEvenRound_tie_even {q : ℚ} {z : ℤ} (h1 : q - z = 1/2) (he : z % 2 = 0) :
    halfEvenRound q = z := by
  have hz : ⌊q⌋ = z := by
    rw [Int.floor_eq_iff]
    exact ⟨by linarith, by linarith⟩
  unfold halfEvenRound
  rw [hz, if_neg (by rw [h1]; exact lt_irrefl _), if_neg (by rw [h1]; exact lt_irrefl _),
    if_pos he]

lemma pyRound_of_lt (nd : ℕ) {q : ℚ} {z : ℤ} (h1 : (z : ℚ) ≤ q * 10 ^ nd)
    (h2 : q * 10 ^ nd - z < 1/2) : pyRound nd q = (z : ℚ) / 10 ^ nd := by
  unfold pyRound
  rw [halfEvenRound_of_lt h1 h2]

lemma pyRound_of_gt (nd : ℕ) {q : ℚ} {z : ℤ} (h1 : 1/2 < q * 10 ^ nd - z)
    (h2 : q * 10 ^ nd < (z : ℚ) + 1) : pyRound nd q = ((z : ℚ) + 1) / 10 ^ nd := by
  unfold pyRound
  rw [halfEvenRound_of_gt h1 h2]
  push_cast
  ring_nf

lemma pyRound_tie_even (nd : ℕ) {q : ℚ} {z : ℤ} (h1 : q * 10 ^ nd - z = 1/2)
    (he : z % 2 = 0) : pyRound nd q = (z : ℚ) / 10 ^ nd := by
  unfold pyRound
  rw [halfEvenRound_tie_even h1 he]

/-- Rounding an integer multiple of `10 ^ (-nd)` is the identity. -/
lemma pyRound_exact (nd : ℕ) (z : ℤ) : pyRound nd ((z : ℚ) / 10 ^ nd) = (z : ℚ) / 10 ^ nd := by
  have hpow : ((10 : ℚ) ^ nd) ≠ 0 := by positivity
  have h : ((z : ℚ) / 10 ^ nd) * 10 ^ nd = (z : ℚ) := div_mul_cancel₀ _ hpow
  rw [pyRound_of_lt nd (z := z) (le_of_eq h.symm) (by rw [h]; norm_num)]

/-! Helper lemmas about `hourReset`. -/

lemma hourReset_available (t : Tracker) (now : ℚ) :
    (hourReset t now).available_capital = t.available_capital := by
  unfold hourReset; split <;> rfl

lemma hourReset_capital (t : Tracker) (now : ℚ) :
    (hourReset t now).capital = t.capital := by
  unfold hourReset; split <;> rfl

lemma hourReset_open (t : Tracker) (now : ℚ) :
    (hourReset t now).open_positions = t.open_positions := by
  unfold hourReset; split <;> rfl

lemma hourReset_settled (t : Tracker) (now : ℚ) :
    (hourReset t now).settled_trades = t.settled_trades := by
  unfold hourReset; split <;> rfl

lemma hourReset_last_trade (t : Tracker) (now : ℚ) :
    (hourReset t now).last_trade_time = t.last_trade_time := by
  unfold hourReset; split <;> rfl

lemma hourReset_hourly (t : Tracker) (now : ℚ) :
    (hourReset t now).hourly_trades = 0 ∨ (hourReset t now).hourly_trades = t.hourly_trades := by
  unfold hourReset; split
  · exact Or.inl rfl
  · exact Or.inr rfl

/-- Full case analysis of `open_position`: either the attempt is rejected
and the accounting state is untouched (only the hour window may have been
reset), or it is accepted and the listed mutations happen. -/
lemma open_position_spec (t : Tracker) (opp : Opp) (now : ℚ) :
    ((open_position t opp now).2 = none ∧
     (open_position t opp now).1.available_capital = t.available_capital ∧
     (open_position t opp now).1.capital = t.capital ∧
     (open_position t opp now).1.open_positions = t.open_positions ∧
     (open_position t opp now).1.settled_trades = t.settled_trades ∧
     (open_position t opp now).1.last_trade_time = t.last_trade_time ∧
     ((open_position t opp now).1.hourly_trades = 0 ∨
      (open_position t opp now).1.hourly_trades = t.hourly_trades)) ∨
    ((open_position t opp now).2 =
       some (mkPosition opp now (position_size_calc t.available_capital opp.edge)) ∧
     position_size_calc t.available_capital opp.edge ≤ t.available_capital ∧
     (open_position t opp now).1.available_capital =
       t.available_capital - position_size_calc t.available_capital opp.edge ∧
     (open_position t opp now).1.capital = t.capital ∧
     (open_position t opp now).1.open_positions =
       t.open_positions ++ [mkPosition opp now (position_size_calc t.available_capital opp.edge)] ∧
     (open_position t opp now).1.settled_trades = t.settled_trades ∧
     (open_position t opp now).1.last_trade_time = some now ∧
     (open_position t opp now).1.hourly_trades ≤ MAX_TRADES_PER_HOUR ∧
     rateLimited t now = false) := by
  unfold open_position
  split
  · exact Or.inl ⟨rfl, rfl, rfl, rfl, rfl, rfl, Or.inr rfl⟩
  · rename_i hr
    split
    · exact Or.inl ⟨rfl, hourReset_available t now, hourReset_capital t now,
        hourReset_open t now, hourReset_settled t now, hourReset_last_trade t now,
        hourReset_hourly t now⟩
    · rename_i hh
      split
      · exact Or.inl ⟨rfl, hourReset_available t now, hourReset_capital t now,
          hourReset_open t now, hourReset_settled t now, hourReset_last_trade t now,
          hourReset_hourly t now⟩
      · rename_i hs
        right
        rw [hourReset_available t now] at hs
        refine ⟨?_, not_lt.mp hs, ?_, hourReset_capital t now, ?_,
          hourReset_settled t now, rfl, ?_, Bool.not_eq_true _ ▸ hr⟩
        · show some (mkPosition opp now
              (position_size_calc (hourReset t now).available_capital opp.edge)) = _
          rw [hourReset_available t now]
        · show (hourReset t now).available_capital -
              position_size_calc (hourReset t now).available_capital opp.edge = _
          rw [hourReset_available t now]
        · show (hourReset t now).open_positions ++
              [mkPosition opp now
                (position_size_calc (hourReset t now).available_capital opp.edge)] = _
          rw [hourReset_available t now, hourReset_open t now]
        · show (hourReset t now).hourly_trades + 1 ≤ MAX_TRADES_PER_HOUR
          exact Nat.succ_le_of_lt (Nat.lt_of_not_le hh)

lemma settle_position_none (t : Tracker) (i : ℕ) (ro : String) (now : ℚ)
    (h : t.open_positions[i]? = none) : settle_position t i ro now = t := by
  unfold settle_position
  rw [h]

lemma settle_position_some (t : Tracker) (i : ℕ) (ro : String) (now : ℚ) (pos : Position)
    (h : t.open_positions[i]? = some pos) :
    settle_position t i ro now =
      { t with
        capital := t.capital + settleExact pos ro
        available_capital := t.available_capital + settlePayout pos ro
        open_positions := t.open_positions.eraseIdx i
        settled_trades := t.settled_trades ++ [settlePos pos ro now] } := by
  unfold settle_position
  rw [h]

lemma settledExactPnl_settlePos (pos : Position) (ro : String) (now : ℚ) :
    settledExactPnl (settlePos pos ro now) = settleExact pos ro := by
  unfold settledExactPnl settlePos settleExact
  cases hb : pos.side == ro <;> simp [hb]

lemma settlePayout_eq (pos : Position) (ro : String) :
    settlePayout pos ro = settleExact pos ro + pos.position_size := by
  unfold settlePayout settleExact
  cases hb : pos.side == ro <;> simp [hb]

/-- Invariant of C2 (amended): `capital` tracks the initial capital plus
the exact (unrounded) pnl of every settled trade. -/
def capInvariant (t : Tracker) : Prop :=
  t.capital = INITIAL_CAPITAL + ((t.settled_trades.map settledExactPnl)).sum

/-- Invariant of C3 (amended): available capital is capital minus the sum
of the recorded sizes of the open positions. -/
def availInvariant (t : Tracker) : Prop :=
  t.available_capital = t.capital - ((t.open_positions.map Position.position_size)).sum

/-- Checks, along a trace, that every accepted open deducted exactly the
recorded (2-decimal rounded) position size from available capital, i.e.
that the computed size had no rounding loss. -/
def sizesExactB (t : Tracker) : List Event → Bool
  | [] => true
  | Event.openEv opp now :: es =>
    (match (open_position t opp now).2 with
     | some p => decide ((open_position t opp now).1.available_capital =
         t.available_capital - p.position_size)
     | none => true) && sizesExactB (open_position t opp now).1 es
  | Event.settleEv i ro now :: es => sizesExactB (settle_position t i ro now) es

lemma sum_map_eraseIdx {α : Type} (f : α → ℚ) :
    ∀ (l : List α) (i : ℕ) (a : α), l[i]? = some a →
      ((l.eraseIdx i).map f).sum = ((l.map f)).sum - f a := by
  intro l
  induction l with
  | nil => intro i a h; simp at h
  | cons b l ih =>
    intro i a h
    cases i with
    | zero =>
      simp only [List.getElem?_cons_zero, Option.some.injEq] at h
      subst h
      simp [List.eraseIdx]
    | succ n =>
      simp only [List.getElem?_cons_succ] at h
      simp only [List.eraseIdx, List.map_cons, List.sum_cons, ih n a h]
      ring

lemma capInvariant_step (t : Tracker) (e : Event) (h : capInvariant t) :
    capInvariant (step t e) := by
  cases e with
  | openEv opp now =>
    unfold capInvariant at *
    show (open_position t opp now).1.capital = INITIAL_CAPITAL +
      (List.map settledExactPnl (open_position t opp now).1.settled_trades).sum
    rcases open_position_spec t opp now with ⟨-, -, hc, -, hs, -, -⟩ | ⟨-, -, -, hc, -, hs, -, -, -⟩ <;>
      rw [hc, hs] <;> exact h
  | settleEv i ro now =>
    unfold capInvariant at *
    show (settle_position t i ro now).capital = INITIAL_CAPITAL +
      (List.map settledExactPnl (settle_position t i ro now).settled_trades).sum
    cases hp : t.open_positions[i]? with
    | none =>
      rw [settle_position_none t i ro now hp]
      exact h
    | some pos =>
      rw [settle_position_some t i ro now pos hp]
      dsimp only
      rw [List.map_append, List.sum_append]
      simp only [List.map_cons, List.map_nil, List.sum_cons, List.sum_nil,
        settledExactPnl_settlePos]
      linarith [h]

lemma availInvariant_settle (t : Tracker) (i : ℕ) (ro : String) (now : ℚ)
    (h : availInvariant t) : availInvariant (settle_position t i ro now) := by
  cases hp : t.open_positions[i]? with
  | none => rw [settle_position_none t i ro now hp]; exact h
  | some pos =>
    unfold availInvariant at *
    rw [settle_position_some t i ro now pos hp]
    dsimp only
    rw [sum_map_eraseIdx Position.position_size t.open_positions i pos hp, settlePayout_eq]
    rw [h]
    ring

lemma availInvariant_open (t : Tracker) (opp : Opp) (now : ℚ) (h : availInvariant t)
    (hex : (match (open_position t opp now).2 with
            | some p => decide ((open_position t opp now).1.available_capital =
                t.available_capital - p.position_size)
            | none => true) = true) :
    availInvariant (open_position t opp now).1 := by
  rcases open_position_spec t opp now with ⟨-, ha, hc, ho, -, -, -⟩ |
    ⟨h2, -, ha, hc, ho, -, -, -, -⟩
  · unfold availInvariant at *
    rw [ha, hc, ho]
    exact h
  · unfold availInvariant at *
    rw [h2] at hex
    simp only [decide_eq_true_eq] at hex
    rw [ha] at hex
    rw [ha, hc, ho, List.map_append, List.sum_append]
    simp only [List.map_cons, List.map_nil, List.sum_cons, List.sum_nil]
    linarith [hex, h]

lemma availInvariant_trace : ∀ (tr : List Event) (t : Tracker), availInvariant t →
    sizesExactB t tr = true → availInvariant (execTrace t tr) := by
  intro tr
  induction tr with
  | nil => intro t h _; exact h
  | cons e es ih =>
    intro t h hB
    cases e with
    | openEv opp now =>
      unfold sizesExactB at hB
      rw [Bool.and_eq_true] at hB
      exact ih _ (availInvariant_open t opp now h hB.1) hB.2
    | settleEv i ro now =>
      unfold sizesExactB at hB
      exact ih _ (availInvariant_settle t i ro now h) hB

/-! Machinery for traces that consist only of `open_position` calls. -/

/-- The tracker obtained from a fresh instance by a sequence of
`open_position` attempts (an opportunity and a wall-clock time each). -/
def openTrace (s : ℚ) (tr : List (Opp × ℚ)) : Tracker :=
  tr.foldl (fun t e => (open_position t e.1 e.2).1) (initialTracker s)

/-- The timestamps of the accepted opens along a trace of open attempts,
in order. -/
def acceptedTimes : Tracker → List (Opp × ℚ) → List ℚ
  | _, [] => []
  | t, (opp, now) :: es =>
    (if (open_position t opp now).2.isSome then [now] else []) ++
      acceptedTimes (open_position t opp now).1 es

lemma getLast?_cons_isSome {α : Type} (x : α) (xs : List α) :
    ((x :: xs).getLast?).isSome = true := by
  induction xs generalizing x with
  | nil => rfl
  | cons y ys ih => rw [List.getLast?_cons_cons]; exact ih y

lemma openFold_avail_nonneg : ∀ (tr : List (Opp × ℚ)) (t : Tracker),
    0 ≤ t.available_capital →
    0 ≤ (tr.foldl (fun t e => (open_position t e.1 e.2).1) t).available_capital := by
  intro tr
  induction tr with
  | nil => intro t h; exact h
  | cons e es ih =>
    intro t h
    refine ih (open_position t e.1 e.2).1 ?_
    rcases open_position_spec t e.1 e.2 with ⟨-, ha, -, -, -, -, -⟩ |
      ⟨-, hle, ha, -, -, -, -, -, -⟩
    · rw [ha]; exact h
    · rw [ha]; linarith

lemma openFold_hourly : ∀ (tr : List (Opp × ℚ)) (t : Tracker),
    t.hourly_trades ≤ MAX_TRADES_PER_HOUR →
    (tr.foldl (fun t e => (open_position t e.1 e.2).1) t).hourly_trades ≤
      MAX_TRADES_PER_HOUR := by
  intro tr
  induction tr with
  | nil => intro t h; exact h
  | cons e es ih =>
    intro t h
    refine ih (open_position t e.1 e.2).1 ?_
    rcases open_position_spec t e.1 e.2 with ⟨-, -, -, -, -, -, hh⟩ |
      ⟨-, -, -, -, -, -, -, hh, -⟩
    · rcases hh with hh | hh
      · rw [hh]; exact Nat.zero_le _
      · rw [hh]; exact h
    · exact hh

lemma openFold_last_trade : ∀ (tr : List (Opp × ℚ)) (t : Tracker),
    (tr.foldl (fun t e => (open_position t e.1 e.2).1) t).last_trade_time =
      ((acceptedTimes t tr).getLast?).elim t.last_trade_time some := by
  intro tr
  induction tr with
  | nil => intro t; simp [acceptedTimes]
  | cons e es ih =>
    intro t
    obtain ⟨opp, now⟩ := e
    show (es.foldl _ (open_position t opp now).1).last_trade_time = _
    unfold acceptedTimes
    rcases open_position_spec t opp now with ⟨h2, -, -, -, -, hl, -⟩ |
      ⟨h2, -, -, -, -, -, hl, -, -⟩
    · rw [h2]
      simp only [Option.isSome_none, Bool.false_eq_true, if_false, List.nil_append]
      rw [ih (open_position t opp now).1, hl]
    · rw [h2]
      simp only [Option.isSome_some, if_true, List.singleton_append]
      rw [ih (open_position t opp now).1, hl]
      cases hA : acceptedTimes (open_position t opp now).1 es with
      | nil => simp
      | cons x xs =>
        rw [List.getLast?_cons_cons]
        cases hg : (x :: xs).getLast? with
        | none =>
          have hco := getLast?_cons_isSome x xs
          rw [hg] at hco
          simp at hco
        | some u => simp

/-! Concrete evaluation helpers for `open_position` and `settle_position`. -/

/-- Evaluation of an accepted `open_position` call. -/
lemma open_position_accept_eval (t : Tracker) (opp : Opp) (now : ℚ)
    (hrl : rateLimited t now = false)
    (hhr : ¬ (now - t.last_hour_reset > 3600))
    (hht : ¬ (MAX_TRADES_PER_HOUR ≤ t.hourly_trades))
    (hs : ¬ (t.available_capital < position_size_calc t.available_capital opp.edge)) :
    open_position t opp now =
      ({ t with
          available_capital := t.available_capital -
            position_size_calc t.available_capital opp.edge
          last_trade_time := some now
          hourly_trades := t.hourly_trades + 1
          traded_market_ids := addMarketId t.traded_market_ids opp.market.id
          open_positions := t.open_positions ++
            [mkPosition opp now (position_size_calc t.available_capital opp.edge)] },
       some (mkPosition opp now (position_size_calc t.available_capital opp.edge))) := by
  have hr : hourReset t now = t := by unfold hourReset; rw [if_neg hhr]
  unfold open_position
  rw [hrl, hr]
  simp only [Bool.false_eq_true, if_false]
  rw [if_neg hht, if_neg hs]

/-- Evaluation of an `open_position` call rejected by the defensive size
check. -/
lemma open_position_reject_size_eval (t : Tracker) (opp : Opp) (now : ℚ)
    (hrl : rateLimited t now = false)
    (hhr : ¬ (now - t.last_hour_reset > 3600))
    (hht : ¬ (MAX_TRADES_PER_HOUR ≤ t.hourly_trades))
    (hs : t.available_capital < position_size_calc t.available_capital opp.edge) :
    open_position t opp now = (t, none) := by
  have hr : hourReset t now = t := by unfold hourReset; rw [if_neg hhr]
  unfold open_position
  rw [hrl, hr]
  simp only [Bool.false_eq_true, if_false]
  rw [if_neg hht, if_pos hs]

/-! Scenario 1 (the scenario of spec sections 8): market M1 with volume
100000, liquidity 40000, prices [0.30, 0.70]; open at t=0 with
available=100 and edge=0.05 giving size 10, shares 33.3333; settle won at
t=70. -/

def mkt1 : Market :=
  { id := "M1", question := "Q1", volume := 100000, liquidity := 40000,
    outcomePrices := some [PriceTok.num 0.30, PriceTok.num 0.70] }

def opp1 : Opp :=
  { market := mkt1, side := "Yes", price := 0.30, edge := 0.05,
    volume := 100000, liquidity := 40000 }

/-- The position record created by scenario 1: all fields as stored by
`open_position` (sizes and prices rounded). -/
def p1 : Position :=
  { id := "POS_0", opened_at := 0, market_id := "M1", question := "Q1", side := "Yes",
    entry_price := 3/10, position_size := 10, shares := 333333/10000, edge := 1/20,
    status := "OPEN", settlement_outcome := none, pnl := none }

def trk1 : Tracker :=
  { capital := 100, available_capital := 90, open_positions := [p1], settled_trades := [],
    start_time := 0, last_trade_time := some 0, hourly_trades := 1, last_hour_reset := 0,
    traded_market_ids := ["M1"] }

def p1s : Position :=
  { id := "POS_0", opened_at := 0, market_id := "M1", question := "Q1", side := "Yes",
    entry_price := 3/10, position_size := 10, shares := 333333/10000, edge := 1/20,
    status := "SETTLED", settlement_outcome := some "Yes", pnl := some (2333/100),
    won := some true, settled_at := some 70 }

def trk1w : Tracker :=
  { capital := 1233333/10000, available_capital := 1233333/10000, open_positions := [],
    settled_trades := [p1s], start_time := 0, last_trade_time := some 0, hourly_trades := 1,
    last_hour_reset := 0, traded_market_ids := ["M1"] }

def tr1 : List Event := [Event.openEv opp1 0, Event.settleEv 0 "Yes" 70]

lemma hps1 : position_size_calc (initialTracker 0).available_capital opp1.edge = 10 := by
  norm_num [initialTracker, INITIAL_CAPITAL, opp1, position_size_calc, min_def, max_def]

lemma mkPosition_opp1 :
    mkPosition opp1 0 (position_size_calc (initialTracker 0).available_capital opp1.edge)
      = p1 := by
  have e1 : pyRound 2 (10 : ℚ) = 10 := by
    rw [pyRound_of_lt 2 (z := 1000) (by norm_num) (by norm_num)]
    norm_num
  have e2 : pyRound 4 opp1.price = 3/10 := by
    show pyRound 4 (0.30 : ℚ) = 3/10
    rw [pyRound_of_lt 4 (z := 3000) (by norm_num) (by norm_num)]
    norm_num
  have e3 : pyRound 4 ((10 : ℚ) / opp1.price) = 333333/10000 := by
    show pyRound 4 ((10 : ℚ) / (0.30 : ℚ)) = 333333/10000
    rw [pyRound_of_lt 4 (z := 333333) (by norm_num) (by norm_num)]
    norm_num
  have e4 : pyRound 4 opp1.edge = 1/20 := by
    show pyRound 4 (0.05 : ℚ) = 1/20
    rw [pyRound_of_lt 4 (z := 500) (by norm_num) (by norm_num)]
    norm_num
  rw [hps1]
  unfold mkPosition
  rw [e2, e3, e4, e1]
  rfl

lemma open1 : open_position (initialTracker 0) opp1 0 = (trk1, some p1) := by
  rw [open_position_accept_eval (initialTracker 0) opp1 0 rfl
    (by norm_num [initialTracker]) (by norm_num [initialTracker, MAX_TRADES_PER_HOUR])
    (by rw [hps1]; norm_num [initialTracker, INITIAL_CAPITAL]), mkPosition_opp1]
  rw [Prod.mk.injEq]
  refine ⟨?_, rfl⟩
  rw [hps1]
  simp only [initialTracker, trk1, addMarketId, INITIAL_CAPITAL, opp1, mkt1]
  norm_num

lemma settle1 : settle_position trk1 0 "Yes" 70 = trk1w := by
  have hx : settleExact p1 "Yes" = 233333/10000 := by
    unfold settleExact
    rw [if_pos (by decide : (p1.side == "Yes") = true)]
    show (333333 : ℚ)/10000 - 10 = 233333/10000
    norm_num
  have hp : settlePayout p1 "Yes" = 333333/10000 := by
    unfold settlePayout
    rw [if_pos (by decide : (p1.side == "Yes") = true)]
    rfl
  have hpos : settlePos p1 "Yes" 70 = p1s := by
    unfold settlePos
    rw [hx]
    have er : pyRound 2 ((233333 : ℚ)/10000) = 2333/100 := by
      rw [pyRound_of_lt 2 (z := 2333) (by norm_num) (by norm_num)]
      norm_num
    rw [er]
    rw [show (p1.side == "Yes") = true from by decide]
    rfl
  rw [settle_position_some trk1 0 "Yes" 70 p1 (by simp [trk1]), hx, hp, hpos]
  simp only [trk1, trk1w]
  rw [Tracker.mk.injEq]
  norm_num

lemma exec_tr1 : execTrace (initialTracker 0) tr1 = trk1w := by
  show settle_position (open_position (initialTracker 0) opp1 0).1 0 "Yes" 70 = trk1w
  rw [open1]
  exact settle1

/-! Scenario 2: an opportunity with edge 0.0333 (e.g. liquidity 73400 at
volume 100000) gives computed size 100 * 0.08325 = 8.325, recorded
(rounded) size 8.32; the position is then settled as a loss. -/

def mkt2 : Market :=
  { id := "M2", question := "Q2", volume := 100000, liquidity := 73400,
    outcomePrices := some [PriceTok.num 0.30, PriceTok.num 0.70] }

def opp2 : Opp :=
  { market := mkt2, side := "Yes", price := 0.30, edge := 0.0333,
    volume := 100000, liquidity := 73400 }

def p2 : Position :=
  { id := "POS_0", opened_at := 0, market_id := "M2", question := "Q2", side := "Yes",
    entry_price := 3/10, position_size := 832/100, shares := 111/4, edge := 333/10000,
    status := "OPEN", settlement_outcome := none, pnl := none }

def trk2 : Tracker :=
  { capital := 100, available_capital := 3667/40, open_positions := [p2], settled_trades := [],
    start_time := 0, last_trade_time := some 0, hourly_trades := 1, last_hour_reset := 0,
    traded_market_ids := ["M2"] }

def p2s : Position :=
  { id := "POS_0", opened_at := 0, market_id := "M2", question := "Q2", side := "Yes",
    entry_price := 3/10, position_size := 832/100, shares := 111/4, edge := 333/10000,
    status := "SETTLED", settlement_outcome := some "No", pnl := some (-(832/100)),
    won := some false, settled_at := some 70 }

def trk2l : Tracker :=
  { capital := 9168/100, available_capital := 3667/40, open_positions := [],
    settled_trades := [p2s], start_time := 0, last_trade_time := some 0, hourly_trades := 1,
    last_hour_reset := 0, traded_market_ids := ["M2"] }

def tr2 : List Event := [Event.openEv opp2 0, Event.settleEv 0 "No" 70]

lemma hps2 : position_size_calc (initialTracker 0).available_capital opp2.edge = 333/40 := by
  norm_num [initialTracker, INITIAL_CAPITAL, opp2, position_size_calc, min_def, max_def]

lemma mkPosition_opp2 :
    mkPosition opp2 0 (position_size_calc (initialTracker 0).available_capital opp2.edge)
      = p2 := by
  have e1 : pyRound 2 ((333 : ℚ)/40) = 832/100 := by
    rw [pyRound_tie_even 2 (z := 832) (by norm_num) (by norm_num)]
    norm_num
  have e2 : pyRound 4 opp2.price = 3/10 := by
    show pyRound 4 (0.30 : ℚ) = 3/10
    rw [pyRound_of_lt 4 (z := 3000) (by norm_num) (by norm_num)]
    norm_num
  have e3 : pyRound 4 ((333 : ℚ)/40 / opp2.price) = 111/4 := by
    show pyRound 4 ((333 : ℚ)/40 / (0.30 : ℚ)) = 111/4
    rw [pyRound_of_lt 4 (z := 277500) (by norm_num) (by norm_num)]
    norm_num
  have e4 : pyRound 4 opp2.edge = 333/10000 := by
    show pyRound 4 (0.0333 : ℚ) = 333/10000
    rw [pyRound_of_lt 4 (z := 333) (by norm_num) (by norm_num)]
    norm_num
  rw [hps2]
  unfold mkPosition
  rw [e2, e3, e4, e1]
  rfl

lemma open2 : open_position (initialTracker 0) opp2 0 = (trk2, some p2) := by
  rw [open_position_accept_eval (initialTracker 0) opp2 0 rfl
    (by norm_num [initialTracker]) (by norm_num [initialTracker, MAX_TRADES_PER_HOUR])
    (by rw [hps2]; norm_num [initialTracker, INITIAL_CAPITAL]), mkPosition_opp2]
  rw [Prod.mk.injEq]
  refine ⟨?_, rfl⟩
  rw [hps2]
  simp only [initialTracker, trk2, addMarketId, INITIAL_CAPITAL, opp2, mkt2]
  norm_num

lemma settle2 : settle_position trk2 0 "No" 70 = trk2l := by
  have hx : settleExact p2 "No" = -(832/100) := by
    unfold settleExact
    rw [if_neg (by decide : ¬ ((p2.side == "No") = true))]
    rfl
  have hp : settlePayout p2 "No" = 0 := by
    unfold settlePayout
    rw [if_neg (by decide : ¬ ((p2.side == "No") = true))]
  have hpos : settlePos p2 "No" 70 = p2s := by
    unfold settlePos
    rw [hx]
    have er : pyRound 2 (-((832 : ℚ)/100)) = -(832/100) := by
      rw [pyRound_of_lt 2 (z := -832) (by norm_num) (by norm_num)]
      norm_num
    rw [er]
    rw [show (p2.side == "No") = false from by decide]
    rfl
  rw [settle_position_some trk2 0 "No" 70 p2 (by simp [trk2]), hx, hp, hpos]
  simp only [trk2, trk2l]
  rw [Tracker.mk.injEq]
  norm_num

lemma exec_tr2 : execTrace (initialTracker 0) tr2 = trk2l := by
  show settle_position (open_position (initialTracker 0) opp2 0).1 0 "No" 70 = trk2l
  rw [open2]
  exact settle2

/-! Scenario 3: a tracker with available capital 4 (below the minimum size
5.0); the sizing formula returns 5 and the defensive check rejects. -/

def trkSmall : Tracker :=
  { capital := 100, available_capital := 4, open_positions := [], settled_trades := [],
    start_time := 0, last_trade_time := none, hourly_trades := 0, last_hour_reset := 0,
    traded_market_ids := [] }

lemma hpsSmall : position_size_calc trkSmall.available_capital opp1.edge = 5 := by
  norm_num [trkSmall, opp1, position_size_calc, min_def, max_def]

lemma openSmall : open_position trkSmall opp1 0 = (trkSmall, none) := by
  refine open_position_reject_size_eval trkSmall opp1 0 rfl
    (by norm_num [trkSmall]) (by norm_num [trkSmall, MAX_TRADES_PER_HOUR]) ?_
  rw [hpsSmall]
  norm_num [trkSmall]

/-! Scanner scenarios: `mkt1` is the spec scenario (volume 100000,
liquidity 40000, prices [0.30, 0.70] → edge 0.05, side Yes at 0.30);
`mkt3` has three parseable prices; `mkt4` has both prices above 0.5. -/

lemma parse_mkt1 : parse_prices mkt1.outcomePrices = some (0.30, 0.70) := rfl

lemma clampedEdge_mkt1 : clampedEdge mkt1 = 0.05 := by
  norm_num [clampedEdge, rawEdge, market_efficiency, mkt1, MIN_EDGE, min_def, max_def]

lemma calc_mkt1 : calculate_opportunity mkt1 = some opp1 := by
  unfold calculate_opportunity
  rw [if_neg (by norm_num [mkt1] : ¬ (mkt1.volume < 50000)), parse_mkt1]
  show calc_scored mkt1 0.30 0.70 = some opp1
  unfold calc_scored
  rw [if_neg (by norm_num), if_neg (by rw [clampedEdge_mkt1]; norm_num [MIN_EDGE]),
    if_pos (by norm_num : (0.30 : ℚ) < 0.5), clampedEdge_mkt1]
  rfl

def mkt3 : Market :=
  { id := "M3", question := "Q3", volume := 100000, liquidity := 40000,
    outcomePrices := some [PriceTok.num 0.30, PriceTok.num 0.70, PriceTok.num 0.50] }

def opp3 : Opp :=
  { market := mkt3, side := "Yes", price := 0.30, edge := 0.05,
    volume := 100000, liquidity := 40000 }

lemma parse_mkt3 : parse_prices mkt3.outcomePrices = some (0.30, 0.70) := rfl

lemma clampedEdge_mkt3 : clampedEdge mkt3 = 0.05 := by
  norm_num [clampedEdge, rawEdge, market_efficiency, mkt3, MIN_EDGE, min_def, max_def]

lemma calc_mkt3 : calculate_opportunity mkt3 = some opp3 := by
  unfold calculate_opportunity
  rw [if_neg (by norm_num [mkt3] : ¬ (mkt3.volume < 50000)), parse_mkt3]
  show calc_scored mkt3 0.30 0.70 = some opp3
  unfold calc_scored
  rw [if_neg (by norm_num), if_neg (by rw [clampedEdge_mkt3]; norm_num [MIN_EDGE]),
    if_pos (by norm_num : (0.30 : ℚ) < 0.5), clampedEdge_mkt3]
  rfl

def mkt4 : Market :=
  { id := "M4", question := "Q4", volume := 100000, liquidity := 40000,
    outcomePrices := some [PriceTok.num 0.60, PriceTok.num 0.70] }

def opp4 : Opp :=
  { market := mkt4, side := "No", price := 0.70, edge := 0.05,
    volume := 100000, liquidity := 40000 }

lemma parse_mkt4 : parse_prices mkt4.outcomePrices = some (0.60, 0.70) := rfl

lemma clampedEdge_mkt4 : clampedEdge mkt4 = 0.05 := by
  norm_num [clampedEdge, rawEdge, market_efficiency, mkt4, MIN_EDGE, min_def, max_def]

lemma calc_mkt4 : calculate_opportunity mkt4 = some opp4 := by
  unfold calculate_opportunity
  rw [if_neg (by norm_num [mkt4] : ¬ (mkt4.volume < 50000)), parse_mkt4]
  show calc_scored mkt4 0.60 0.70 = some opp4
  unfold calc_scored
  rw [if_neg (by norm_num), if_neg (by rw [clampedEdge_mkt4]; norm_num [MIN_EDGE]),
    if_neg (by norm_num : ¬ ((0.60 : ℚ) < 0.5)), clampedEdge_mkt4]
  rfl

lemma parse_prices_some_inv {op : Option (List PriceTok)} {a b : ℚ}
    (h : parse_prices op = some (a, b)) :
    ∃ l, op = some l ∧ 2 ≤ l.length ∧ l[0]? = some (PriceTok.num a) ∧
      l[1]? = some (PriceTok.num b) := by
  cases op with
  | none => exact Option.noConfusion h
  | some l =>
    replace h : (if 2 ≤ l.length then
        match l with
        | PriceTok.num a' :: PriceTok.num b' :: _ => some (a', b')
        | _ => none
      else none) = some (a, b) := h
    by_cases hlen : 2 ≤ l.length
    · rw [if_pos hlen] at h
      cases l with
      | nil => simp at hlen
      | cons x xs =>
        cases xs with
        | nil => simp at hlen
        | cons y ys =>
          cases x with
          | bad => exact Option.noConfusion h
          | num a' =>
            cases y with
            | bad => exact Option.noConfusion h
            | num b' =>
              injection h with h'
              rw [Prod.mk.injEq] at h'
              obtain ⟨ha, hb⟩ := h'
              subst ha
              subst hb
              refine ⟨PriceTok.num a' :: PriceTok.num b' :: ys, rfl, hlen, ?_, ?_⟩ <;> simp
    · rw [if_neg hlen] at h
      exact Option.noConfusion h

/-!
The claim theorems.
-/

/-- C1 (code bug): saving the state and loading it into a fresh tracker
does not reproduce the state.  On the reachable state of scenario 1 (one
settled winning trade, capital 123.3333): the reloaded settled-trade
collection is empty, because `save_state` writes the settled trades only
under the key `recent_settled` (and only the last 5) while `load_state`
reads the never-written key `settled_trades`; the reloaded capital is the
2-decimal rounding 123.33 of the original capital 123.3333. -/
theorem c1_save_load_divergence :
    (load_state (initialTracker 100)
        (save_state (execTrace (initialTracker 0) tr1) 100)).settled_trades = [] ∧
    (execTrace (initialTracker 0) tr1).settled_trades ≠ [] ∧
    (save_state (execTrace (initialTracker 0) tr1) 100).recent_settled =
      (execTrace (initialTracker 0) tr1).settled_trades ∧
    (load_state (initialTracker 100)
        (save_state (execTrace (initialTracker 0) tr1) 100)).capital ≠
      (execTrace (initialTracker 0) tr1).capital := by
  rw [exec_tr1]
  refine ⟨?_, ?_, ?_, ?_⟩
  · simp [load_state, save_state]
  · simp [trk1w]
  · simp [save_state, takeLast, trk1w]
  · have e : pyRound 2 ((1233333 : ℚ)/10000) = 12333/100 := by
      rw [pyRound_of_lt 2 (z := 12333) (by norm_num) (by norm_num)]
      norm_num
    simp only [load_state, save_state, trk1w, Option.getD_some]
    rw [e]
    norm_num

/-- C2 (amended): after any trace of ledger events, `capital` equals the
initial capital plus the sum over settled positions of the exact
settlement pnl `(shares if won else 0) - position_size` recomputed from
the stored fields.  The stored `pnl` field is the 2-decimal rounding of
that quantity, so the claim as stated (with the recorded pnl fields) fails
by the rounding error; see the counterexample. -/
theorem c2_capital_equals_initial_plus_exact_pnl (s : ℚ) (tr : List Event) :
    (execTrace (initialTracker s) tr).capital =
      INITIAL_CAPITAL +
        ((execTrace (initialTracker s) tr).settled_trades.map settledExactPnl).sum := by
  have key : ∀ (l : List Event) (t : Tracker), capInvariant t → capInvariant (execTrace t l) := by
    intro l
    induction l with
    | nil => intro t h; exact h
    | cons e es ih => intro t h; exact ih (step t e) (capInvariant_step t e h)
  exact key tr (initialTracker s) (by unfold capInvariant initialTracker; simp)

/-- C2 counterexample: after opening Yes at price 0.30 with size 10
(shares stored as 33.3333) and settling it won, capital is 123.3333 but
the initial capital plus the sum of the recorded (rounded) pnl fields is
123.33. -/
theorem c2_recorded_pnl_counterexample :
    (execTrace (initialTracker 0) tr1).capital ≠
      INITIAL_CAPITAL +
        ((execTrace (initialTracker 0) tr1).settled_trades.map
          (fun p => p.pnl.getD 0)).sum := by
  rw [exec_tr1]
  simp only [trk1w, p1s, List.map_cons, List.map_nil, List.sum_cons, List.sum_nil,
    Option.getD_some, INITIAL_CAPITAL]
  norm_num

/-- C3 (amended): available capital equals capital minus the sum of the
recorded sizes of the open positions after every event of a trace,
provided every accepted open along the trace deducted exactly its
recorded (2-decimal rounded) size, i.e. the computed size had no rounding
loss.  Without that hypothesis the two sides differ by the accumulated
size-rounding error; see the counterexample. -/
theorem c3_available_matches_open_sizes (s : ℚ) (tr : List Event)
    (h : sizesExactB (initialTracker s) tr = true) :
    (execTrace (initialTracker s) tr).available_capital =
      (execTrace (initialTracker s) tr).capital -
        ((execTrace (initialTracker s) tr).open_positions.map Position.position_size).sum :=
  availInvariant_trace tr (initialTracker s)
    (by unfold availInvariant initialTracker; simp) h

lemma sizesExact_tr1 : sizesExactB (initialTracker 0) tr1 = true := by
  have h1 : (open_position (initialTracker 0) opp1 0).2 = some p1 := by rw [open1]
  have h2 : (open_position (initialTracker 0) opp1 0).1 = trk1 := by rw [open1]
  simp only [tr1, sizesExactB, h1, h2]
  rw [Bool.and_eq_true]
  refine ⟨?_, rfl⟩
  rw [decide_eq_true_eq]
  norm_num [trk1, initialTracker, p1, INITIAL_CAPITAL]

/-- C3 witness: scenario 1 (size 10, exactly representable) satisfies the
hypothesis and the invariant after its settlement. -/
theorem c3_available_matches_open_sizes_witness :
    sizesExactB (initialTracker 0) tr1 = true ∧
    (execTrace (initialTracker 0) tr1).available_capital =
      (execTrace (initialTracker 0) tr1).capital -
        ((execTrace (initialTracker 0) tr1).open_positions.map
          Position.position_size).sum :=
  ⟨sizesExact_tr1, c3_available_matches_open_sizes 0 tr1 sizesExact_tr1⟩

/-- C3 counterexample: with edge 0.0333 the computed size is 8.325 but the
recorded size is 8.32; after settling that position as a loss,
available capital is 91.675 while capital minus the (empty) open-size sum
is 91.68. -/
theorem c3_rounding_counterexample :
    (execTrace (initialTracker 0) tr2).available_capital ≠
      (execTrace (initialTracker 0) tr2).capital -
        ((execTrace (initialTracker 0) tr2).open_positions.map
          Position.position_size).sum := by
  rw [exec_tr2]
  simp only [trk2l, List.map_nil, List.sum_nil]
  norm_num

/-- C4 (amended): settling the open position at index `i` with resolution
label `ro` computes `won` as equality of the stored side with `ro` (hence
false whenever `ro` is neither known side label), adds the exact pnl
(`shares - position_size` on a win, `-position_size` otherwise) to
capital, adds the payout (`shares` on a win, 0 otherwise) to available
capital, and stores as the `pnl` field the 2-decimal rounding of the
exact pnl; the claim as stated (recorded pnl equals `shares -
position_size` exactly on a win) fails by that rounding, see the
counterexample. -/
theorem c4_settle_semantics (t : Tracker) (i : ℕ) (ro : String) (now : ℚ) (pos : Position)
    (h : t.open_positions[i]? = some pos) :
    (settle_position t i ro now).capital = t.capital +
      (if pos.side == ro then pos.shares - pos.position_size else -pos.position_size) ∧
    (settle_position t i ro now).available_capital = t.available_capital +
      (if pos.side == ro then pos.shares else 0) ∧
    (settle_position t i ro now).settled_trades.getLast? = some (settlePos pos ro now) ∧
    (settlePos pos ro now).won = some (pos.side == ro) ∧
    (settlePos pos ro now).pnl = some (pyRound 2
      (if pos.side == ro then pos.shares - pos.position_size else -pos.position_size)) ∧
    ((pos.side = "Yes" ∨ pos.side = "No") → ro ≠ "Yes" → ro ≠ "No" →
      (pos.side == ro) = false) := by
  rw [settle_position_some t i ro now pos h]
  refine ⟨rfl, rfl, ?_, rfl, rfl, ?_⟩
  · exact List.getLast?_concat _
  · rintro (hside | hside) hy hn
    · rw [hside]
      exact beq_eq_false_iff_ne.mpr (Ne.symm hy)
    · rw [hside]
      exact beq_eq_false_iff_ne.mpr (Ne.symm hn)

/-- C4 witness: settling scenario 1 as won adds the exact pnl 23.3333 to
capital. -/
theorem c4_settle_semantics_witness :
    trk1.open_positions[0]? = some p1 ∧
    (settle_position trk1 0 "Yes" 70).capital = trk1.capital +
      (if p1.side == "Yes" then p1.shares - p1.position_size else -p1.position_size) :=
  ⟨by simp [trk1], (c4_settle_semantics trk1 0 "Yes" 70 p1 (by simp [trk1])).1⟩

/-- C4 counterexample: the settled position of scenario 1 won, yet its
recorded pnl 23.33 differs from `shares - position_size = 23.3333`. -/
theorem c4_recorded_pnl_counterexample :
    (execTrace (initialTracker 0) tr1).settled_trades.map (fun p => p.pnl)
      = [some (2333/100)] ∧
    (execTrace (initialTracker 0) tr1).settled_trades.map (fun p => p.won)
      = [some true] ∧
    (execTrace (initialTracker 0) tr1).settled_trades.map
      (fun p => p.shares - p.position_size) = [233333/10000] ∧
    (2333 : ℚ)/100 ≠ 233333/10000 := by
  rw [exec_tr1]
  refine ⟨by simp [trk1w, p1s], by simp [trk1w, p1s], ?_, by norm_num⟩
  simp [trk1w, p1s]
  norm_num

/-- C5 (amended): the computed position size never exceeds the available
capital whenever the available capital is at least the minimum size 5.0;
for 0 < available < 5 the clamp returns 5 > available and the defensive
rejection in `open_position` does fire, see the counterexample. -/
theorem c5_size_le_available (A e : ℚ) (h : 5 ≤ A) : position_size_calc A e ≤ A := by
  unfold position_size_calc
  have h0 : (0 : ℚ) ≤ A := by linarith
  have h15 : A * 0.15 ≤ A := by nlinarith
  exact max_le (by linarith) (le_trans (min_le_right _ _) h15)

/-- C5 witness: at available capital 100 and edge 0.05 the computed size
is at most 100. -/
theorem c5_size_le_available_witness :
    (5 : ℚ) ≤ 100 ∧ position_size_calc 100 0.05 ≤ 100 :=
  ⟨by norm_num, c5_size_le_available 100 0.05 (by norm_num)⟩

/-- C5 counterexample: at available capital 4 (> 0) the computed size is
5 > 4, and `open_position` rejects through the defensive check while the
rate and hourly checks pass. -/
theorem c5_small_available_counterexample :
    (0 : ℚ) < trkSmall.available_capital ∧
    trkSmall.available_capital < position_size_calc trkSmall.available_capital opp1.edge ∧
    (open_position trkSmall opp1 0).2 = none := by
  refine ⟨by norm_num [trkSmall], ?_, by rw [openSmall]⟩
  rw [hpsSmall]
  norm_num [trkSmall]

/-- C6: along any sequence of `open_position` calls from the initial
state, available capital never becomes negative, the hourly counter never
exceeds the cap of 5, the last-trade timestamp is always the time of the
most recent accepted open, and an attempt less than 60 seconds after it
is rejected with `none`. -/
theorem c6_open_invariants (s : ℚ) (tr : List (Opp × ℚ)) :
    0 ≤ (openTrace s tr).available_capital ∧
    (openTrace s tr).hourly_trades ≤ MAX_TRADES_PER_HOUR ∧
    (openTrace s tr).last_trade_time = (acceptedTimes (initialTracker s) tr).getLast? ∧
    (∀ (opp : Opp) (now lt : ℚ), (openTrace s tr).last_trade_time = some lt →
      now - lt < 60 → (open_position (openTrace s tr) opp now).2 = none) := by
  refine ⟨openFold_avail_nonneg tr (initialTracker s)
      (by norm_num [initialTracker, INITIAL_CAPITAL]),
    openFold_hourly tr (initialTracker s) (by simp [initialTracker]), ?_, ?_⟩
  · have hfold := openFold_last_trade tr (initialTracker s)
    show (tr.foldl (fun t e => (open_position t e.1 e.2).1) (initialTracker s)).last_trade_time
      = _
    rw [hfold]
    cases (acceptedTimes (initialTracker s) tr).getLast? <;> rfl
  · intro opp now lt hl hlt
    have hr : rateLimited (openTrace s tr) now = true := by
      unfold rateLimited
      rw [hl]
      exact decide_eq_true hlt
    unfold open_position
    rw [hr]
    rfl

lemma openTrace_single : openTrace 0 [(opp1, 0)] = trk1 := by
  show (open_position (initialTracker 0) opp1 0).1 = trk1
  rw [open1]

/-- C6 witness: after one accepted open at time 0, an attempt at time 30
is rejected. -/
theorem c6_open_invariants_witness :
    (openTrace 0 [(opp1, 0)]).last_trade_time = some 0 ∧
    (open_position (openTrace 0 [(opp1, 0)]) opp1 30).2 = none := by
  have hl : (openTrace 0 [(opp1, 0)]).last_trade_time = some 0 := by
    rw [openTrace_single]
    rfl
  exact ⟨hl, (c6_open_invariants 0 [(opp1, 0)]).2.2.2 opp1 30 0 hl (by norm_num)⟩

/-- C7 (amended): every position created by `open_position` stores the
2-decimal rounding of the computed size, the 4-decimal rounding of the
entry price, and the 4-decimal rounding of (computed size / price); the
stored `shares` is therefore not in general the quotient of the stored
`position_size` by the stored `entry_price`, see the counterexample. -/
theorem c7_recorded_fields (t : Tracker) (opp : Opp) (now : ℚ) (p : Position)
    (h : (open_position t opp now).2 = some p) :
    p.position_size = pyRound 2 (position_size_calc t.available_capital opp.edge) ∧
    p.entry_price = pyRound 4 opp.price ∧
    p.shares = pyRound 4 (position_size_calc t.available_capital opp.edge / opp.price) := by
  rcases open_position_spec t opp now with ⟨h2, -, -, -, -, -, -⟩ |
    ⟨h2, -, -, -, -, -, -, -, -⟩
  · rw [h2] at h
    exact Option.noConfusion h
  · rw [h2] at h
    injection h with h
    subst h
    exact ⟨rfl, rfl, rfl⟩

/-- C7 witness: the fields of the scenario 1 position are the rounded
values of the computed quantities. -/
theorem c7_recorded_fields_witness :
    (open_position (initialTracker 0) opp1 0).2 = some p1 ∧
    p1.shares = pyRound 4
      (position_size_calc (initialTracker 0).available_capital opp1.edge / opp1.price) := by
  have h : (open_position (initialTracker 0) opp1 0).2 = some p1 := by rw [open1]
  exact ⟨h, (c7_recorded_fields (initialTracker 0) opp1 0 p1 h).2.2⟩

/-- C7 counterexample: the scenario 1 position stores shares 33.3333,
size 10 and entry price 0.30, and 33.3333 is not 10 / 0.30. -/
theorem c7_shares_ratio_counterexample :
    (open_position (initialTracker 0) opp1 0).2 = some p1 ∧
    p1.shares ≠ p1.position_size / p1.entry_price := by
  refine ⟨by rw [open1], ?_⟩
  simp only [p1]
  norm_num

/-- C8 (amended): the scanner yields an opportunity only when the
outcome-price field is present with at least two entries of which the
first two parse as floats, and any parse failure (missing field, fewer
than two entries, unparseable entry) yields no opportunity rather than an
error; "exactly two" in the claim fails: a market with three parseable
prices also yields an opportunity, see the counterexample. -/
theorem c8_price_parsing :
    (∀ (m : Market) (o : Opp), calculate_opportunity m = some o →
      ∃ l, m.outcomePrices = some l ∧ 2 ≤ l.length ∧
        (∃ a b, l[0]? = some (PriceTok.num a) ∧ l[1]? = some (PriceTok.num b))) ∧
    (∀ m : Market, parse_prices m.outcomePrices = none →
      calculate_opportunity m = none) := by
  constructor
  · intro m o h
    unfold calculate_opportunity at h
    split at h
    · exact Option.noConfusion h
    · split at h
      · exact Option.noConfusion h
      · rename_i yes no heq
        obtain ⟨l, hop, hlen, h0, h1⟩ := parse_prices_some_inv heq
        exact ⟨l, hop, hlen, yes, no, h0, h1⟩
  · intro m hp
    unfold calculate_opportunity
    split
    · rfl
    · rw [hp]

/-- C8 witness: the spec scenario market (two parseable prices) yields an
opportunity, and its price list satisfies the parsing conditions. -/
theorem c8_price_parsing_witness :
    calculate_opportunity mkt1 = some opp1 ∧
    (∃ l, mkt1.outcomePrices = some l ∧ 2 ≤ l.length ∧
      (∃ a b, l[0]? = some (PriceTok.num a) ∧ l[1]? = some (PriceTok.num b))) :=
  ⟨calc_mkt1, c8_price_parsing.1 mkt1 opp1 calc_mkt1⟩

/-- C8 counterexample: a market whose outcome-price field has three
parseable prices (not exactly two) still yields an opportunity. -/
theorem c8_three_prices_counterexample :
    calculate_opportunity mkt3 = some opp3 ∧
    mkt3.outcomePrices.map List.length = some 3 :=
  ⟨calc_mkt3, rfl⟩

/-- C9 (amended): the scanner takes side Yes at the yes price when the
yes price is below 0.5 and side No at the no price otherwise; when the
two prices sum to 1 and the yes price is not exactly 0.5, the chosen
side is indeed the one priced strictly below 0.5.  Without the
complementary-prices hypothesis the claim fails, see the
counterexample. -/
theorem c9_side_selection (m : Market) (o : Opp) (yes no : ℚ)
    (hp : parse_prices m.outcomePrices = some (yes, no))
    (hsum : yes + no = 1) (hne : yes ≠ 0.5)
    (h : calculate_opportunity m = some o) :
    o.price < 0.5 ∧
    ((o.side = "Yes" ∧ o.price = yes ∧ yes < 0.5) ∨
     (o.side = "No" ∧ o.price = no ∧ no < 0.5)) := by
  unfold calculate_opportunity at h
  split at h
  · exact Option.noConfusion h
  · rw [hp] at h
    replace h : calc_scored m yes no = some o := h
    unfold calc_scored at h
    split at h
    · exact Option.noConfusion h
    · split at h
      · exact Option.noConfusion h
      · split at h
        · rename_i hy
          injection h with h
          subst h
          exact ⟨hy, Or.inl ⟨rfl, rfl, hy⟩⟩
        · rename_i hy
          injection h with h
          subst h
          have hyes : (0.5 : ℚ) < yes := lt_of_le_of_ne (not_lt.mp hy) (Ne.symm hne)
          have hno : no < 0.5 := by linarith
          exact ⟨hno, Or.inr ⟨rfl, rfl, hno⟩⟩

/-- C9 witness: the spec scenario [0.30, 0.70] picks side Yes at price
0.30, the outcome priced below 0.5. -/
theorem c9_side_selection_witness :
    opp1.price < 0.5 ∧
    ((opp1.side = "Yes" ∧ opp1.price = 0.30 ∧ (0.30 : ℚ) < 0.5) ∨
     (opp1.side = "No" ∧ opp1.price = 0.70 ∧ (0.70 : ℚ) < 0.5)) :=
  c9_side_selection mkt1 opp1 0.30 0.70 parse_mkt1 (by norm_num) (by norm_num) calc_mkt1

/-- C9 counterexample: a market with prices [0.60, 0.70] (not summing to
1) survives all filters and the scanner takes side No at price 0.70,
which is not strictly below 0.5. -/
theorem c9_high_price_counterexample :
    (calculate_opportunity mkt4).map Opp.side = some "No" ∧
    (calculate_opportunity mkt4).map Opp.price = some 0.70 ∧
    ¬ ((0.70 : ℚ) < 0.5) := by
  rw [calc_mkt4]
  exact ⟨rfl, rfl, by norm_num⟩

/-- C10: every opportunity produced by the scanner has its edge in the
closed interval [0.03, 0.10], and removing the `edge < MIN_EDGE` discard
branch does not change the function: that branch is unreachable after
the clamp. -/
theorem c10_edge_bounds :
    (∀ (m : Market) (o : Opp), calculate_opportunity m = some o →
      MIN_EDGE ≤ o.edge ∧ o.edge ≤ 0.10) ∧
    (∀ m : Market, calculate_opportunity_nofilter m = calculate_opportunity m) := by
  constructor
  · intro m o h
    unfold calculate_opportunity at h
    split at h
    · exact Option.noConfusion h
    · split at h
      · exact Option.noConfusion h
      · rename_i yes no heq
        replace h : calc_scored m yes no = some o := h
        unfold calc_scored at h
        have hedge : MIN_EDGE ≤ clampedEdge m ∧ clampedEdge m ≤ 0.10 := by
          unfold clampedEdge
          exact ⟨le_max_left _ _, max_le (by norm_num [MIN_EDGE]) (min_le_right _ _)⟩
        split at h
        · exact Option.noConfusion h
        · split at h
          · exact Option.noConfusion h
          · split at h <;> (injection h with h; subst h; exact hedge)
  · intro m
    unfold calculate_opportunity calculate_opportunity_nofilter
    split
    · rfl
    · split
      · rfl
      · rename_i yes no
        unfold calc_scored calc_scored_nofilter
        have hle : MIN_EDGE ≤ clampedEdge m := le_max_left _ _
        split
        · rfl
        · rw [if_neg (not_lt.mpr hle)]

/-- C10 witness: the spec scenario opportunity has edge 0.05, inside
[0.03, 0.10]. -/
theorem c10_edge_bounds_witness : MIN_EDGE ≤ opp1.edge ∧ opp1.edge ≤ 0.10 :=
  c10_edge_bounds.1 mkt1 opp1 calc_mkt1

end RealSettlementTracker
